import Mathlib

/-!
Shallow embedding of the windmill fixture control core (`src/main.rs`, `src/pwm.rs`,
`src/fixture.rs`, `src/wiringpi.rs`) and proofs about its state reconciliation engine.

Machine integers (`u8`, `u64`) are embedded as `Nat`.  Rust integer arithmetic that can
trap (u8 `+` / `-`, which panic on overflow in debug builds) is embedded as checked
arithmetic returning `Option`, so `none` marks a would-be panic.  Side-effecting calls
(`set_brake`, `set_safety`, `set_direction_forward`, `set_direction_reverse`, PWM writes)
are embedded as explicit effect values collected in issue order.  The one `f64`
computation (the duty-cycle scaling) is embedded exactly, as rational arithmetic with
explicit IEEE binary64 round-to-nearest-even at 53 significant bits.
-/

/-! ### Constants (`src/wiringpi.rs`, `src/main.rs`) -/

/-- WiringPi magic number for a low digital bit. -/
def DIGITAL_LOW : Int := 0

/-- WiringPi magic number for a high digital bit. -/
def DIGITAL_HIGH : Int := 1

/-- Pin driving the brake relay (`BRAKE_PIN` in `main.rs`). -/
def BRAKE_PIN : Int := 3

/-- Pin driving the motor direction relay. -/
def MOTOR_DIRECTION_PIN : Int := 4

/-- Pin enabling the forward driving circuit. -/
def FORWARD_DRIVING_PIN : Int := 9

/-- Pin enabling the reverse driving circuit. -/
def REVERSE_DRIVING_PIN : Int := 10

/-- Pin driving the safety relay. -/
def SAFETY_PIN : Int := 13

/-- Brake engaged (stop) level. -/
def BRAKE_STOP : Int := DIGITAL_LOW

/-- Brake released (run) level. -/
def BRAKE_RUN : Int := DIGITAL_HIGH

/-- Motor direction relay level for forward travel. -/
def MOTOR_DIRECTION_FORWARD : Int := DIGITAL_LOW

/-- Motor direction relay level for reverse travel. -/
def MOTOR_DIRECTION_REVERSE : Int := DIGITAL_HIGH

/-- Driving-enable line inactive level. -/
def DRIVING_INACTIVE : Int := DIGITAL_LOW

/-- Driving-enable line active level. -/
def DRIVING_ACTIVE : Int := DIGITAL_HIGH

/-- Safety relay de-asserted (no-go) level. -/
def SAFETY_NO : Int := DIGITAL_LOW

/-- Safety relay asserted (go) level. -/
def SAFETY_GO : Int := DIGITAL_HIGH

/-- Lower bound of the DMX speed input domain (`u8::MIN`). -/
def INPUT_MIN : Nat := 0

/-- Upper bound of the DMX speed input domain (`u8::MAX`). -/
def INPUT_MAX : Nat := 255

/-- Lower bound of the duty-cycle output domain. -/
def OUTPUT_MIN : Nat := 0

/-- Upper bound of the duty-cycle output domain. -/
def OUTPUT_MAX : Nat := 100

/-- Number of 10 ms ticks between state updates. -/
def UPDATE_TICKS : Nat := 6

/-- Maximum speed slew per update. -/
def MAX_SPEED_CHANGE_PER_CYCLE : Nat := 1

/-! ### The fixture state (`src/fixture.rs`) -/

/-- The `Windmill` enum from `fixture.rs`: the fixture is off, cooling down for a number
of cycles, or moving forward / in reverse at a `u8` speed.  Payloads are `Nat`; the `u8`
range is captured by `Windmill.valid`. -/
inductive Windmill where
  | Off : Windmill
  | Cooldown (cycles : Nat) : Windmill
  | Forward (speed : Nat) : Windmill
  | Reverse (speed : Nat) : Windmill
deriving DecidableEq, Repr

/-- A `Windmill` value is valid when its payload fits in a `u8`. -/
def Windmill.valid : Windmill → Prop
  | .Off => True
  | .Cooldown cycles => cycles ≤ 255
  | .Forward speed => speed ≤ 255
  | .Reverse speed => speed ≤ 255

instance (s : Windmill) : Decidable s.valid := by
  cases s <;> simp [Windmill.valid] <;> infer_instance

/-! ### Checked `u8` arithmetic

Rust `u8` subtraction and addition panic on wrap in debug builds; `none` embeds the
panic. -/

/-- Checked `u8` subtraction: `a - b`, or `none` on underflow. -/
def checkedSub (a b : Nat) : Option Nat :=
  if b ≤ a then some (a - b) else none

/-- Checked `u8` addition: `a + b`, or `none` on overflow past 255. -/
def checkedAdd (a b : Nat) : Option Nat :=
  if a + b ≤ 255 then some (a + b) else none

/-! ### The transition function (`state_change_evaluator` in `src/main.rs`)

The Rust function pattern-matches on `(current_state, desired_state)`; GPIO side effects
issued inside a branch are collected in order in the first component of the result.
`none` marks a `u8` overflow panic (which claim C10 shows is unreachable). -/

/-- GPIO side effects issued from inside `state_change_evaluator`. -/
inductive Effect where
  | SetDirectionForward : Effect
  | SetDirectionReverse : Effect
  | SetBrake (value : Int) : Effect
deriving DecidableEq, Repr

/-- The `state_change_evaluator` function of `main.rs`, with the match arms in source
order.  Guarded Rust arms (`if current == desired`, `if current > desired`) become
nested conditionals inside the corresponding constructor arm. -/
def state_change_evaluator (current_state desired_state : Windmill) :
    Option (List Effect × Windmill) :=
  match current_state, desired_state with
  | .Off, .Off => some ([], .Off)
  | .Cooldown cycles, _ =>
      if 0 < cycles then
        (checkedSub cycles 1).map fun n => ([], Windmill.Cooldown n)
      else
        some ([], .Off)
  | _, .Cooldown _ => some ([], .Off)
  | .Off, .Forward _ =>
      some ([.SetDirectionForward, .SetBrake BRAKE_RUN], .Forward 0)
  | .Off, .Reverse _ =>
      some ([.SetDirectionReverse, .SetBrake BRAKE_RUN], .Reverse 0)
  | .Forward current, .Forward desired =>
      if current = desired then
        some ([], .Forward current)
      else if desired < current then
        (checkedSub current MAX_SPEED_CHANGE_PER_CYCLE).map fun x =>
          ([], Windmill.Forward (max x desired))
      else
        (checkedAdd current MAX_SPEED_CHANGE_PER_CYCLE).map fun x =>
          ([], Windmill.Forward (min x desired))
  | .Reverse current, .Reverse desired =>
      if current = desired then
        some ([], .Reverse current)
      else if desired < current then
        (checkedSub current MAX_SPEED_CHANGE_PER_CYCLE).map fun x =>
          ([], Windmill.Reverse (max x desired))
      else
        (checkedAdd current MAX_SPEED_CHANGE_PER_CYCLE).map fun x =>
          ([], Windmill.Reverse (min x desired))
  | _, .Off => some ([.SetBrake BRAKE_STOP], .Cooldown 100)
  | .Forward _, .Reverse _ => some ([.SetBrake BRAKE_STOP], .Cooldown 100)
  | .Reverse _, .Forward _ => some ([.SetBrake BRAKE_STOP], .Cooldown 100)

/-- The state component of `state_change_evaluator` (the `next` function of the spec). -/
def nextState (current desired : Windmill) : Option Windmill :=
  (state_change_evaluator current desired).map Prod.snd


/-! ### Exact model of the `f64` duty-cycle scaling (`SCALE` and the cast in `main.rs`)

The reconciler computes
`(OUTPUT_MIN as f64 + ((speed as f64 - INPUT_MIN as f64) * SCALE)) as u8` with
`SCALE = (OUTPUT_MAX as f64 - OUTPUT_MIN as f64) / (INPUT_MAX as f64 - INPUT_MIN as f64)`.
All the integer-to-`f64` conversions and the two subtractions are exact (the operands are
small integers), and adding `0.0` is exact, so exactly two IEEE binary64 roundings occur:
the division `100.0 / 255.0` and the multiplication `speed * SCALE`.  Both operate on
nonnegative normal values far from overflow, so each is round-to-nearest-even at 53
significant bits.  We model nonnegative rationals as numerator/denominator pairs of
naturals (denominator positive) and implement that rounding exactly. -/

/-- Fuel-bounded binary length: `bitsAux fuel n` is the number of binary digits of `n`
for every `n < 2 ^ fuel`. -/
def bitsAux : Nat → Nat → Nat
  | 0, _ => 0
  | fuel + 1, n => if n = 0 then 0 else bitsAux fuel (n / 2) + 1

/-- Binary length of a natural number below `2 ^ 128` (ample for every value occurring
in the duty-cycle computation). -/
def bitLen (n : Nat) : Nat := bitsAux 128 n

/-- Floor of the base-2 logarithm of the positive fraction `a / b`. -/
def ratFloorLog2 (a b : Nat) : Int :=
  let k : Int := (bitLen a : Int) - (bitLen b : Int)
  if 0 ≤ k then
    if a < 2 ^ k.toNat * b then k - 1 else k
  else
    if a * 2 ^ (-k).toNat < b then k - 1 else k

/-- Round the nonnegative fraction `x / b` to the nearest integer, ties to even. -/
def rneNat (x b : Nat) : Nat :=
  let q := x / b
  let r := x % b
  if 2 * r < b then q
  else if b < 2 * r then q + 1
  else if q % 2 = 0 then q else q + 1

/-- Round the nonnegative rational `a / b` to the nearest IEEE binary64 value
(round-to-nearest-even at 53 significant bits; the values arising here are normal and far
below overflow), returned as a numerator/denominator pair. -/
def roundF64 (a b : Nat) : Nat × Nat :=
  if a = 0 then (0, 1)
  else
    let shift : Int := 52 - ratFloorLog2 a b
    if 0 ≤ shift then
      (rneNat (a * 2 ^ shift.toNat) b, 2 ^ shift.toNat)
    else
      (rneNat a (b * 2 ^ (-shift).toNat) * 2 ^ (-shift).toNat, 1)

/-- The `SCALE` constant of `main.rs`: the `f64` value of
`(OUTPUT_MAX - OUTPUT_MIN) / (INPUT_MAX - INPUT_MIN)` (the subtractions are exact, the
division rounds once). -/
def SCALE : Nat × Nat := roundF64 (OUTPUT_MAX - OUTPUT_MIN) (INPUT_MAX - INPUT_MIN)

/-- The duty-cycle scaling expression of the reconciler loop:
`(OUTPUT_MIN as f64 + ((speed as f64 - INPUT_MIN as f64) * SCALE)) as u8`.
For `speed ≤ 255` the conversion to `f64` is exact, subtracting `INPUT_MIN = 0` and
adding `OUTPUT_MIN = 0` are exact identities, the multiplication rounds once, and the
`as u8` cast truncates toward zero and saturates into `[0, 255]` (the value is
nonnegative, so only the upper saturation is modelled). -/
def scaleF64 (speed : Nat) : Nat :=
  let p := roundF64 ((speed - INPUT_MIN) * SCALE.1) SCALE.2
  min (p.1 / p.2) 255

/-- The duty cycle chosen by the reconciler for a freshly computed state (`match` on
`new_state` in the update branch of the loop in `main.rs`). -/
def duty_cycle_of : Windmill → Nat
  | .Off | .Cooldown _ => 0
  | .Forward speed | .Reverse speed => scaleF64 speed


/-! ### The desired-state inbox (`tokio::sync::mpsc::unbounded_channel` in `main.rs`)

The channel is an unbounded FIFO queue; `try_recv` pops the oldest pending message.
`Disconnected` is reported only when the queue is empty and the sender is gone. -/

/-- State of the unbounded mpsc channel: the pending messages in send order (oldest
first) and whether the sender half is still alive. -/
structure UnboundedChannel where
  pending : List Windmill
  senderAlive : Bool
deriving DecidableEq, Repr

/-- Result of `try_recv`: `ok v`, or `Err(TryRecvError::Empty)`, or
`Err(TryRecvError::Disconnected)`. -/
inductive TryRecvResult where
  | ok (v : Windmill) : TryRecvResult
  | empty : TryRecvResult
  | disconnected : TryRecvResult
deriving DecidableEq, Repr

/-- Sending on the unbounded channel appends to the back of the queue. -/
def UnboundedChannel.push (ch : UnboundedChannel) (v : Windmill) : UnboundedChannel :=
  ⟨ch.pending ++ [v], ch.senderAlive⟩

/-- Push a sequence of values in order. -/
def pushAll (ch : UnboundedChannel) (vs : List Windmill) : UnboundedChannel :=
  vs.foldl UnboundedChannel.push ch

/-- The non-blocking receive: pops the oldest pending message if any; on an empty queue
reports `empty` while the sender lives and `disconnected` once it is gone. -/
def try_recv (ch : UnboundedChannel) : TryRecvResult × UnboundedChannel :=
  match ch.pending with
  | v :: rest => (.ok v, ⟨rest, ch.senderAlive⟩)
  | [] => if ch.senderAlive then (.empty, ch) else (.disconnected, ch)

/-! ### One iteration of the reconciler loop (`loop` body in `main.rs`)

The loop body: `rx.try_recv()` (storing a received value as `desired_state`, returning
`Err` on disconnect), `tick = (tick + 1) % UPDATE_TICKS`, `continue` when `tick != 0`
(note: this skips the trailing sleep), otherwise `state_change_evaluator`, a duty-cycle
write and commit of `current_state` when the state changed, and finally the 10 ms sleep.
Observable actions are collected as `LoopEvent`s in issue order. -/

/-- Observable actions of one reconciler loop iteration, in issue order. -/
inductive LoopEvent where
  | evalEffect (e : Effect) : LoopEvent
  | pwmWrite (duty : Nat) : LoopEvent
  | commit (s : Windmill) : LoopEvent
  | sleepMs (ms : Nat) : LoopEvent
deriving DecidableEq, Repr

/-- The mutable state of the reconciler loop. -/
structure LoopState where
  channel : UnboundedChannel
  desired_state : Windmill
  current_state : Windmill
  tick : Nat
deriving DecidableEq, Repr

/-- Outcome of one loop iteration: proceed to the next iteration with updated state and
an event trace, or return the fatal disconnect error. -/
inductive IterResult where
  | next (st : LoopState) (events : List LoopEvent) : IterResult
  | fatal (msg : String) : IterResult
deriving DecidableEq, Repr

/-- The part of the loop body after the inbox read: increment the tick counter modulo
`UPDATE_TICKS`; on a non-update tick `continue` — producing no events, in particular no
sleep; on an update tick evaluate the transition (collecting its GPIO effects), write the
duty cycle and commit the new state when it differs from the current one, then sleep
10 ms.  `none` marks a `u8` overflow panic inside `state_change_evaluator`. -/
def iterationAfterRecv (st : LoopState) : Option IterResult :=
  let tick := (st.tick + 1) % UPDATE_TICKS
  if tick ≠ 0 then
    some (.next ⟨st.channel, st.desired_state, st.current_state, tick⟩ [])
  else
    (state_change_evaluator st.current_state st.desired_state).map fun p =>
      let changed := p.2 ≠ st.current_state
      let events :=
        if changed then
          p.1.map LoopEvent.evalEffect ++
            [LoopEvent.pwmWrite (duty_cycle_of p.2), LoopEvent.commit p.2]
        else
          p.1.map LoopEvent.evalEffect
      let current := if changed then p.2 else st.current_state
      IterResult.next ⟨st.channel, st.desired_state, current, tick⟩
        (events ++ [LoopEvent.sleepMs 10])

/-- One full iteration of the reconciler loop, starting with the `try_recv` call. -/
def reconciler_iteration (st : LoopState) : Option IterResult :=
  let rc := try_recv st.channel
  match rc.1 with
  | .disconnected =>
      some (.fatal "windmill lost connection to incoming DMX messages.")
  | .ok v => iterationAfterRecv ⟨rc.2, v, st.current_state, st.tick⟩
  | .empty => iterationAfterRecv ⟨rc.2, st.desired_state, st.current_state, st.tick⟩

/-! ### Safe shutdown and the supervisor (`graceful_shutdown` and `select!` in
`main.rs`) -/

/-- Observable actions of the shutdown path. -/
inductive ShutdownEvent where
  | printMsg : ShutdownEvent
  | digitalWrite (pin : Int) (value : Int) : ShutdownEvent
  | exitProcess (code : Nat) : ShutdownEvent
deriving DecidableEq, Repr

/-- The `set_brake` helper: a digital write of `value` to the brake pin. -/
def set_brake (value : Int) : ShutdownEvent := .digitalWrite BRAKE_PIN value

/-- The `set_safety` helper: a digital write of `value` to the safety pin. -/
def set_safety (value : Int) : ShutdownEvent := .digitalWrite SAFETY_PIN value

/-- The `graceful_shutdown` function: print, engage the brake, de-assert the safety
relay, then exit with code 0 — in that order, taking no account of (and no input from)
the current reconciler state. -/
def graceful_shutdown : List ShutdownEvent :=
  [.printMsg, set_brake BRAKE_STOP, set_safety SAFETY_NO, .exitProcess 0]

/-- The five events the `select!` in `main` waits on. -/
inductive SupervisorEvent where
  | olaTaskDone : SupervisorEvent
  | windmillTaskDone : SupervisorEvent
  | ctrlC : SupervisorEvent
  | terminateSignal : SupervisorEvent
  | interruptSignal : SupervisorEvent
deriving DecidableEq, Repr

/-- Reaction of the `select!` arms: each of the three signal arms runs
`graceful_shutdown`; a finished task arm instead propagates the task error (modelled as
`none`: no shutdown sequence runs on that path). -/
def supervisor_select : SupervisorEvent → Option (List ShutdownEvent)
  | .ctrlC => some graceful_shutdown
  | .terminateSignal => some graceful_shutdown
  | .interruptSignal => some graceful_shutdown
  | .olaTaskDone => none
  | .windmillTaskDone => none

/-! ### The PWM driver (`src/pwm.rs`) -/

/-- The period computed by `Driver::new`: `1_000_000_000u64 / frequency` (nanoseconds).
The Rust division panics for `frequency = 0`; callers pass 20000. -/
def period_of_frequency (frequency : Nat) : Nat := 1000000000 / frequency

/-- The `calculate_duty_cycle_map` helper: entry `i` (for `i ≤ 100`) holds
`period_pulse * i` with `period_pulse = period / 100` (integer division). -/
def calculate_duty_cycle_map (period : Nat) : List Nat :=
  (List.range 101).map fun i => (period / 100) * i

/-- The nanosecond value `Driver::set_duty_cycle` writes to the `duty_cycle` control
file: the requested percentage is clamped to 100, then looked up in the precomputed map
(with the `"0"` default of `unwrap_or` for an out-of-range index, which cannot occur). -/
def set_duty_cycle_write (period : Nat) (duty_cycle : Nat) : Nat :=
  let d := if 100 < duty_cycle then 100 else duty_cycle
  (calculate_duty_cycle_map period).getD d 0


/-! ### Iterating the transition function -/

/-- Apply `nextState` with the constant desired state `Off`, `k` times. -/
def iterNextOff : Nat → Windmill → Option Windmill
  | 0, s => some s
  | k + 1, s => (nextState s .Off).bind (iterNextOff k)

/-- Apply `nextState` `k` times, the desired state of each application drawn from an
arbitrary sequence `ds`. -/
def iterNextSeq (ds : Nat → Windmill) : Nat → Windmill → Option Windmill
  | 0, s => some s
  | k + 1, s => (nextState s (ds k)).bind (iterNextSeq ds k)

/-- The starting states quantified over in claim C6: `Off`, `Cooldown n` with
`n ≤ 100`, or a moving state with a `u8` speed. -/
def validStart : Windmill → Prop
  | .Off => True
  | .Cooldown n => n ≤ 100
  | .Forward c => c ≤ 255
  | .Reverse c => c ≤ 255

instance (s : Windmill) : Decidable (validStart s) := by
  cases s <;> simp [validStart] <;> infer_instance


/-! ### Helper lemmas -/

/-- Resting is a fixed point of the transition function. -/
theorem nextState_off_off : nextState .Off .Off = some .Off := rfl

/-- A drained cool-down steps to `Off` whatever the desired state. -/
theorem nextState_cooldown_zero (d : Windmill) : nextState (.Cooldown 0) d = some .Off := by
  cases d <;> rfl

/-- A live cool-down counts down by one whatever the desired state. -/
theorem nextState_cooldown_succ (n : Nat) (d : Windmill) :
    nextState (.Cooldown (n + 1)) d = some (.Cooldown n) := by
  cases d <;> simp [nextState, state_change_evaluator, checkedSub]

/-- A moving forward state with desired `Off` brakes into `Cooldown 100`. -/
theorem nextState_forward_off (c : Nat) :
    nextState (.Forward c) .Off = some (.Cooldown 100) := rfl

/-- A moving reverse state with desired `Off` brakes into `Cooldown 100`. -/
theorem nextState_reverse_off (c : Nat) :
    nextState (.Reverse c) .Off = some (.Cooldown 100) := rfl

/-- Unfolding lemma for one application of `iterNextOff`. -/
theorem iterNextOff_succ (k : Nat) (s : Windmill) :
    iterNextOff (k + 1) s = (nextState s .Off).bind (iterNextOff k) := rfl

/-- With desired `Off`, the `Off` state is stable under iteration. -/
theorem iterNextOff_off : ∀ k, iterNextOff k .Off = some .Off := by
  intro k
  induction k with
  | zero => rfl
  | succ k ih =>
      show (nextState .Off .Off).bind (iterNextOff k) = some .Off
      rw [nextState_off_off]
      exact ih

/-- With desired `Off`, `Cooldown n` reaches `Off` after any more than `n` steps. -/
theorem iterNextOff_cooldown : ∀ n k : Nat, n < k → iterNextOff k (.Cooldown n) = some .Off := by
  intro n
  induction n with
  | zero =>
      intro k hk
      obtain ⟨m, rfl⟩ : ∃ m, k = m + 1 := ⟨k - 1, by omega⟩
      show (nextState (.Cooldown 0) .Off).bind (iterNextOff m) = some .Off
      rw [nextState_cooldown_zero]
      exact iterNextOff_off m
  | succ n ih =>
      intro k hk
      obtain ⟨m, rfl⟩ : ∃ m, k = m + 1 := ⟨k - 1, by omega⟩
      show (nextState (.Cooldown (n + 1)) .Off).bind (iterNextOff m) = some .Off
      rw [nextState_cooldown_succ]
      exact ih m (by omega)

/-- Under any sequence of desired states, `Cooldown n` drains to `Off` in exactly
`n + 1` updates. -/
theorem iterNextSeq_cooldown_drain (ds : Nat → Windmill) :
    ∀ n, iterNextSeq ds (n + 1) (.Cooldown n) = some .Off := by
  intro n
  induction n with
  | zero =>
      show (nextState (.Cooldown 0) (ds 0)).bind (iterNextSeq ds 0) = some .Off
      rw [nextState_cooldown_zero]
      rfl
  | succ n ih =>
      show (nextState (.Cooldown (n + 1)) (ds (n + 1))).bind (iterNextSeq ds (n + 1)) = some .Off
      rw [nextState_cooldown_succ]
      exact ih

/-- Pushing a list of values appends it to the pending queue. -/
theorem pushAll_eq (vs : List Windmill) : ∀ ch : UnboundedChannel,
    pushAll ch vs = ⟨ch.pending ++ vs, ch.senderAlive⟩ := by
  induction vs with
  | nil => intro ch; cases ch; simp [pushAll]
  | cons v vs ih =>
      intro ch
      show pushAll (ch.push v) vs = _
      rw [ih]
      simp [UnboundedChannel.push]

/-- Entry `d ≤ 100` of the precomputed duty-cycle map is `period / 100 * d`. -/
theorem duty_cycle_map_getD (period d : Nat) (h : d ≤ 100) :
    (calculate_duty_cycle_map period).getD d 0 = period / 100 * d := by
  rw [calculate_duty_cycle_map, List.getD_eq_getElem?_getD, List.getElem?_map,
    List.getElem?_range (by omega : d < 101)]
  rfl

set_option maxRecDepth 8000 in
/-- The scaled `f64` duty cycle, computed exactly, agrees with `⌊s * 100 / 255⌋` on the
whole `u8` input range. -/
theorem scaleF64_eq_floor : ∀ s < 256, scaleF64 s = s * 100 / 255 := by decide

/-! ### Claim theorems -/

/-- C9: each of the Ctrl-C, terminate and interrupt arms of the supervisor `select!`
runs `graceful_shutdown`, whose action sequence — independent of any reconciler state —
first drives the brake line to `BRAKE_STOP` (LOW), then the safety line to `SAFETY_NO`
(LOW), and then exits the process with code 0, in that order. -/
theorem c9_safe_shutdown_sequence :
    supervisor_select .ctrlC = some graceful_shutdown
  ∧ supervisor_select .terminateSignal = some graceful_shutdown
  ∧ supervisor_select .interruptSignal = some graceful_shutdown
  ∧ graceful_shutdown =
      [.printMsg, .digitalWrite BRAKE_PIN BRAKE_STOP, .digitalWrite SAFETY_PIN SAFETY_NO,
        .exitProcess 0]
  ∧ BRAKE_STOP = DIGITAL_LOW ∧ SAFETY_NO = DIGITAL_LOW :=
  ⟨rfl, rfl, rfl, rfl, rfl, rfl⟩

/-- C2: from any moving state, a desired state of `Off` or of the opposite travel
direction makes the evaluator return `Cooldown 100` with the brake-engage side effect
`SetBrake BRAKE_STOP`; and in a loop iteration committing such an update the brake
effect appears in the event trace strictly before the commit of the new state. -/
theorem c2_brake_to_cooldown (s t : Nat) :
    state_change_evaluator (.Forward s) .Off =
      some ([.SetBrake BRAKE_STOP], .Cooldown 100)
  ∧ state_change_evaluator (.Reverse s) .Off =
      some ([.SetBrake BRAKE_STOP], .Cooldown 100)
  ∧ state_change_evaluator (.Forward s) (.Reverse t) =
      some ([.SetBrake BRAKE_STOP], .Cooldown 100)
  ∧ state_change_evaluator (.Reverse s) (.Forward t) =
      some ([.SetBrake BRAKE_STOP], .Cooldown 100)
  ∧ reconciler_iteration ⟨⟨[], true⟩, .Off, .Forward s, 5⟩ =
      some (.next ⟨⟨[], true⟩, .Off, .Cooldown 100, 0⟩
        [.evalEffect (.SetBrake BRAKE_STOP), .pwmWrite 0, .commit (.Cooldown 100),
          .sleepMs 10]) := by
  refine ⟨rfl, rfl, rfl, rfl, ?_⟩
  simp [reconciler_iteration, try_recv, iterationAfterRecv, state_change_evaluator,
    duty_cycle_of, UPDATE_TICKS]

/-- C3: cool-down is preemptive — for `n ≥ 1` and any desired state,
`next (Cooldown n) d = Cooldown (n - 1)`, and `next (Cooldown 0) d = Off`; consequently
under any sequence of desired states `Cooldown n` drains to `Off`. -/
theorem c3_cooldown_preemptive (n : Nat) (d : Windmill) (h : 1 ≤ n) :
    nextState (.Cooldown n) d = some (.Cooldown (n - 1))
  ∧ nextState (.Cooldown 0) d = some .Off
  ∧ (∀ ds : Nat → Windmill, iterNextSeq ds (n + 1) (.Cooldown n) = some .Off) := by
  obtain ⟨m, rfl⟩ : ∃ m, n = m + 1 := ⟨n - 1, by omega⟩
  exact ⟨by simpa using nextState_cooldown_succ m d,
    nextState_cooldown_zero d,
    fun ds => iterNextSeq_cooldown_drain ds (m + 1)⟩

/-- Witness for C3 at `n = 100`, `d = Reverse 50`. -/
theorem c3_cooldown_preemptive_witness :
    (1 ≤ 100)
  ∧ (nextState (.Cooldown 100) (.Reverse 50) = some (.Cooldown (100 - 1))
      ∧ nextState (.Cooldown 0) (.Reverse 50) = some .Off
      ∧ (∀ ds : Nat → Windmill, iterNextSeq ds (100 + 1) (.Cooldown 100) = some .Off)) :=
  ⟨by decide, c3_cooldown_preemptive 100 (.Reverse 50) (by decide)⟩

/-- C4: counter-evidence for the pacing claim — on a non-update tick the `continue`
statement skips the trailing 10 ms sleep, so the iteration produces an empty event
trace, with no `sleepMs` suspension point at all. -/
theorem c4_non_update_tick_skips_sleep (ch : UnboundedChannel) (des cur : Windmill)
    (tick : Nat) (halive : ch.senderAlive = true)
    (hmod : (tick + 1) % UPDATE_TICKS ≠ 0) :
    ∃ ch2 des2, reconciler_iteration ⟨ch, des, cur, tick⟩ =
      some (.next ⟨ch2, des2, cur, (tick + 1) % UPDATE_TICKS⟩ []) := by
  cases hp : ch.pending with
  | nil =>
      refine ⟨ch, des, ?_⟩
      simp [reconciler_iteration, try_recv, hp, halive, iterationAfterRecv, hmod]
  | cons v rest =>
      refine ⟨⟨rest, true⟩, v, ?_⟩
      simp [reconciler_iteration, try_recv, hp, halive, iterationAfterRecv, hmod]

/-- Witness for C4 at the first loop iteration (`tick = 0`, empty live channel). -/
theorem c4_non_update_tick_skips_sleep_witness :
    (⟨[], true⟩ : UnboundedChannel).senderAlive = true
  ∧ (0 + 1) % UPDATE_TICKS ≠ 0
  ∧ (∃ ch2 des2, reconciler_iteration ⟨⟨[], true⟩, .Off, .Off, 0⟩ =
      some (.next ⟨ch2, des2, .Off, (0 + 1) % UPDATE_TICKS⟩ [])) :=
  ⟨rfl, by decide, c4_non_update_tick_skips_sleep ⟨[], true⟩ .Off .Off 0 rfl (by decide)⟩

/-- C5: counterexample — two values pushed between two reads; the single `try_recv` at
the next tick stores the oldest (`Forward 1`) as the desired state, not the most recent
(`Forward 2`), which remains queued. -/
theorem c5_single_read_keeps_oldest :
    reconciler_iteration ⟨pushAll ⟨[], true⟩ [.Forward 1, .Forward 2], .Off, .Off, 0⟩ =
      some (.next ⟨⟨[.Forward 2], true⟩, .Forward 1, .Off, 1⟩ [])
  ∧ Windmill.Forward 1 ≠ .Forward 2 :=
  ⟨rfl, by decide⟩

/-- C5 (amended): the single non-blocking read returns the oldest value pushed since the
last read — the FIFO head — or reports `empty` when none arrived (leaving the stored
desired state unchanged); newer values remain queued for later ticks. -/
theorem c5_try_recv_fifo (v : Windmill) (vs : List Windmill) (des cur : Windmill) :
    (try_recv (pushAll ⟨[], true⟩ (v :: vs))).1 = .ok v
  ∧ (try_recv (pushAll ⟨[], true⟩ (v :: vs))).2 = ⟨vs, true⟩
  ∧ (try_recv ⟨[], true⟩).1 = .empty
  ∧ reconciler_iteration ⟨pushAll ⟨[], true⟩ (v :: vs), des, cur, 0⟩ =
      some (.next ⟨⟨vs, true⟩, v, cur, 1⟩ [])
  ∧ reconciler_iteration ⟨⟨[], true⟩, des, cur, 0⟩ =
      some (.next ⟨⟨[], true⟩, des, cur, 1⟩ []) := by
  rw [pushAll_eq]
  refine ⟨rfl, rfl, rfl, rfl, rfl⟩

set_option maxRecDepth 4000 in
/-- C6: counterexample — starting from `Forward 0` with constant desired `Off`, none of
the first 101 applications of the transition function reaches `Off` (the filter of those
iterates hitting `Off` is empty): application 101 lands on `Cooldown 0`, and `Off` is
reached only at application 102. -/
theorem c6_not_off_within_101 :
    iterNextOff 101 (.Forward 0) = some (.Cooldown 0)
  ∧ ((List.range 102).filter fun k => decide (iterNextOff k (.Forward 0) = some .Off)) = []
  ∧ iterNextOff 102 (.Forward 0) = some .Off :=
  ⟨by decide, by decide, by decide⟩

/-- C6 (amended): from every starting state of the claim (`Off`, `Cooldown n` with
`n ≤ 100`, or a moving state with a `u8` speed), repeatedly applying the transition
function with constant desired `Off` reaches `Off` within at most 102 applications —
and `Off` is stable, so the 102nd iterate is exactly `Off`. -/
theorem c6_reaches_off_within_102 (s : Windmill) (h : validStart s) :
    iterNextOff 102 s = some .Off := by
  cases s with
  | Off => exact iterNextOff_off 102
  | Cooldown n =>
      refine iterNextOff_cooldown n 102 ?_
      simp only [validStart] at h
      omega
  | Forward c =>
      rw [show (102 : Nat) = 101 + 1 from rfl, iterNextOff_succ, nextState_forward_off,
        Option.some_bind]
      exact iterNextOff_cooldown 100 101 (by omega)
  | Reverse c =>
      rw [show (102 : Nat) = 101 + 1 from rfl, iterNextOff_succ, nextState_reverse_off,
        Option.some_bind]
      exact iterNextOff_cooldown 100 101 (by omega)

/-- Witness for the amended C6 at the moving state `Forward 200`. -/
theorem c6_reaches_off_within_102_witness :
    validStart (.Forward 200) ∧ iterNextOff 102 (.Forward 200) = some .Off :=
  ⟨by decide, c6_reaches_off_within_102 (.Forward 200) (by decide)⟩

/-- C8: counterexample — with frequency 65535 Hz the period is 15259 ns, which is not
divisible by 100; `set_duty_cycle(100)` then writes `(15259 / 100) * 100 = 15200` to the
control file, not `⌊15259 * 100 / 100⌋ = 15259` as the claim states. -/
theorem c8_not_floor_of_product :
    period_of_frequency 65535 = 15259
  ∧ set_duty_cycle_write 15259 100 = 15200
  ∧ 15259 * 100 / 100 = 15259
  ∧ set_duty_cycle_write 15259 100 ≠ 15259 * 100 / 100 :=
  ⟨by decide, by decide, by decide, by decide⟩

/-- C8 (amended): `set_duty_cycle(p)` clamps `p` to `[0, 100]` and writes
`(period / 100) * p` — the per-percent pulse `period / 100` is truncated first, then
multiplied by the percentage — which coincides with `⌊period * p / 100⌋` exactly when
100 divides the period (as it does for the configured 20 kHz period of 50000 ns), but
not for general periods. -/
theorem c8_pulse_times_percent (period p : Nat) :
    set_duty_cycle_write period p = period / 100 * min p 100
  ∧ (p ≤ 100 → set_duty_cycle_write period p = period / 100 * p)
  ∧ (100 < p → set_duty_cycle_write period p = period / 100 * 100)
  ∧ (period % 100 = 0 → set_duty_cycle_write period p = period * min p 100 / 100) := by
  have key : set_duty_cycle_write period p = period / 100 * min p 100 := by
    simp only [set_duty_cycle_write]
    by_cases hp : 100 < p
    · rw [if_pos hp, duty_cycle_map_getD period 100 (by omega)]
      congr 1
      omega
    · rw [if_neg hp, duty_cycle_map_getD period p (by omega)]
      congr 1
      omega
  refine ⟨key, fun hle => ?_, fun hgt => ?_, fun hdvd => ?_⟩
  · rw [key]
    congr 1
    omega
  · rw [key]
    congr 1
    omega
  · rw [key]
    obtain ⟨k, rfl⟩ : ∃ k, period = 100 * k := ⟨period / 100, by omega⟩
    rw [Nat.mul_div_cancel_left k (by norm_num : 0 < 100), Nat.mul_assoc,
      Nat.mul_div_cancel_left _ (by norm_num : 0 < 100)]

/-- Witness for the amended C8 at the configured period 50000 ns and percentage 42. -/
theorem c8_pulse_times_percent_witness :
    (42 ≤ 100) ∧ (50000 % 100 = 0)
  ∧ set_duty_cycle_write 50000 42 = 50000 / 100 * 42
  ∧ set_duty_cycle_write 50000 42 = 50000 * min 42 100 / 100 :=
  ⟨by decide, by decide, (c8_pulse_times_percent 50000 42).2.1 (by decide),
    (c8_pulse_times_percent 50000 42).2.2.2 (by decide)⟩

/-- C10: with `MAX_SPEED_CHANGE_PER_CYCLE = 1` the transition function is total and
panic-free on all pairs of `u8`-payload states: no branch performs an underflowing `u8`
subtraction or an overflowing `u8` addition, so the checked-arithmetic embedding never
returns `none`. -/
theorem c10_evaluator_total (c d : Windmill) (hc : c.valid) (hd : d.valid) :
    (state_change_evaluator c d).isSome := by
  cases c <;> cases d <;>
    simp only [state_change_evaluator, Windmill.valid, checkedSub, checkedAdd,
      MAX_SPEED_CHANGE_PER_CYCLE] at * <;>
    first
      | rfl
      | (split_ifs <;> first | rfl | (exfalso; omega))

/-- Witness for C10 at the accelerating pair `(Forward 3, Forward 200)`. -/
theorem c10_evaluator_total_witness :
    (Windmill.Forward 3).valid ∧ (Windmill.Forward 200).valid
  ∧ (state_change_evaluator (.Forward 3) (.Forward 200)).isSome :=
  ⟨by decide, by decide,
    c10_evaluator_total (.Forward 3) (.Forward 200) (by decide) (by decide)⟩

/-- C7: the duty cycle emitted for a moving state with speed `s` equals
`⌊s * 100 / 255⌋` on the whole `u8` range (the exact `f64` computation agrees with the
integer floor), with `duty 0 = 0`, `duty 255 = 100`, monotonicity in the speed, and
duty 0 for `Off` and `Cooldown`. -/
theorem c7_duty_cycle_mapping (s : Nat) (hs : s ≤ 255) :
    duty_cycle_of (.Forward s) = s * 100 / 255
  ∧ duty_cycle_of (.Reverse s) = s * 100 / 255
  ∧ duty_cycle_of (.Forward 0) = 0
  ∧ duty_cycle_of (.Forward 255) = 100
  ∧ (∀ t, s ≤ t → t ≤ 255 →
      duty_cycle_of (.Forward s) ≤ duty_cycle_of (.Forward t))
  ∧ duty_cycle_of .Off = 0
  ∧ (∀ n, duty_cycle_of (.Cooldown n) = 0) := by
  have hforward : duty_cycle_of (.Forward s) = s * 100 / 255 :=
    scaleF64_eq_floor s (by omega)
  refine ⟨hforward, hforward, by decide, by decide, ?_, rfl, fun n => rfl⟩
  intro t hst ht
  have hf : duty_cycle_of (.Forward t) = t * 100 / 255 := scaleF64_eq_floor t (by omega)
  rw [hforward, hf]
  exact Nat.div_le_div_right (by omega)

/-- Witness for C7 at `s = 51` (a jump point of the floor mapping). -/
theorem c7_duty_cycle_mapping_witness :
    (51 ≤ 255)
  ∧ (duty_cycle_of (.Forward 51) = 51 * 100 / 255
      ∧ duty_cycle_of (.Reverse 51) = 51 * 100 / 255
      ∧ duty_cycle_of (.Forward 0) = 0
      ∧ duty_cycle_of (.Forward 255) = 100
      ∧ (∀ t, 51 ≤ t → t ≤ 255 →
          duty_cycle_of (.Forward 51) ≤ duty_cycle_of (.Forward t))
      ∧ duty_cycle_of .Off = 0
      ∧ (∀ n, duty_cycle_of (.Cooldown n) = 0)) :=
  ⟨by decide, c7_duty_cycle_mapping 51 (by decide)⟩

/-- C1: for `Forward(c)` easing toward `Forward(d)` (and the mirror for `Reverse`), the
transition yields speed `e = clamp(c + sign(d - c) * Δ, min(c, d), max(c, d))` with
`Δ = MAX_SPEED_CHANGE_PER_CYCLE = 1`: `e = c` when `c = d`, `e = max(c - Δ, d)` when
`c > d`, `e = min(c + Δ, d)` when `c < d`; hence `|e - c| ≤ Δ`, `e` stays between `c`
and `d`, and `e` moves monotonically toward `d`. -/
theorem c1_speed_easing (c d : Nat) (hc : c ≤ 255) (hd : d ≤ 255) :
    ∃ e, nextState (.Forward c) (.Forward d) = some (.Forward e)
      ∧ nextState (.Reverse c) (.Reverse d) = some (.Reverse e)
      ∧ (c = d → e = c)
      ∧ (d < c → e = max (c - MAX_SPEED_CHANGE_PER_CYCLE) d)
      ∧ (c < d → e = min (c + MAX_SPEED_CHANGE_PER_CYCLE) d)
      ∧ (e : Int) =
          max (min (c : Int) (d : Int))
            (min (max (c : Int) (d : Int))
              ((c : Int) + Int.sign ((d : Int) - (c : Int)) *
                (MAX_SPEED_CHANGE_PER_CYCLE : Int)))
      ∧ ((e : Int) - (c : Int)).natAbs ≤ MAX_SPEED_CHANGE_PER_CYCLE
      ∧ min c d ≤ e ∧ e ≤ max c d
      ∧ ((d : Int) - (e : Int)).natAbs ≤ ((d : Int) - (c : Int)).natAbs := by
  simp only [MAX_SPEED_CHANGE_PER_CYCLE]
  rcases Nat.lt_trichotomy c d with h | h | h
  · have hne : c ≠ d := Nat.ne_of_lt h
    have hnlt : ¬ d < c := by omega
    have hadd : c + 1 ≤ 255 := by omega
    have hsign : Int.sign ((d : Int) - (c : Int)) = 1 :=
      Int.sign_eq_one_of_pos (by omega)
    refine ⟨min (c + 1) d, ?_, ?_, by intro h2; omega, by intro h2; omega,
      by intro h2; omega, ?_, by omega, by omega, by omega, by omega⟩
    · simp [nextState, state_change_evaluator, hne, hnlt, checkedAdd,
        MAX_SPEED_CHANGE_PER_CYCLE, hadd]
    · simp [nextState, state_change_evaluator, hne, hnlt, checkedAdd,
        MAX_SPEED_CHANGE_PER_CYCLE, hadd]
    · rw [hsign, one_mul]
      omega
  · subst h
    refine ⟨c, ?_, ?_, by intro h2; omega, by intro h2; omega, by intro h2; omega,
      ?_, by omega, by omega, by omega, by omega⟩
    · simp [nextState, state_change_evaluator]
    · simp [nextState, state_change_evaluator]
    · rw [Int.sub_self, Int.sign_zero, zero_mul]
      omega
  · have hne : c ≠ d := by omega
    have hsub : 1 ≤ c := by omega
    have hsign : Int.sign ((d : Int) - (c : Int)) = -1 :=
      Int.sign_eq_neg_one_of_neg (by omega)
    refine ⟨max (c - 1) d, ?_, ?_, by intro h2; omega, by intro h2; omega,
      by intro h2; omega, ?_, by omega, by omega, by omega, by omega⟩
    · simp [nextState, state_change_evaluator, hne, h, checkedSub,
        MAX_SPEED_CHANGE_PER_CYCLE, hsub]
    · simp [nextState, state_change_evaluator, hne, h, checkedSub,
        MAX_SPEED_CHANGE_PER_CYCLE, hsub]
    · rw [hsign, neg_one_mul]
      omega

/-- Witness for C1 at the accelerating pair `c = 3`, `d = 7`. -/
theorem c1_speed_easing_witness :
    (3 ≤ 255) ∧ (7 ≤ 255)
  ∧ (∃ e, nextState (.Forward 3) (.Forward 7) = some (.Forward e)
      ∧ nextState (.Reverse 3) (.Reverse 7) = some (.Reverse e)
      ∧ ((3 : Nat) = 7 → e = 3)
      ∧ ((7 : Nat) < 3 → e = max (3 - MAX_SPEED_CHANGE_PER_CYCLE) 7)
      ∧ ((3 : Nat) < 7 → e = min (3 + MAX_SPEED_CHANGE_PER_CYCLE) 7)
      ∧ (e : Int) =
          max (min (3 : Int) (7 : Int))
            (min (max (3 : Int) (7 : Int))
              ((3 : Int) + Int.sign ((7 : Int) - (3 : Int)) *
                (MAX_SPEED_CHANGE_PER_CYCLE : Int)))
      ∧ ((e : Int) - (3 : Int)).natAbs ≤ MAX_SPEED_CHANGE_PER_CYCLE
      ∧ min 3 7 ≤ e ∧ e ≤ max 3 7
      ∧ ((7 : Int) - (e : Int)).natAbs ≤ ((7 : Int) - (3 : Int)).natAbs) :=
  ⟨by decide, by decide, c1_speed_easing 3 7 (by decide) (by decide)⟩
